import Mathlib

/-!
Verification of the vp process-supervisor core (instance lifecycle,
resource allocator, process discovery) against its specification.

The C++ core is shallowly embedded: std::map fields become association
lists keyed by String, shell-outs and OS probes become explicit oracle
functions carried in an Env record, and each operation is a pure
function from a State to a State together with its result.
-/

namespace VP

/-! ### Association-list maps, modelling std::map with String keys -/

/-- Association list standing in for a std::map keyed by strings. -/
abbrev VMap (α : Type) := List (String × α)

/-- Exact-key lookup, as std::map::find. -/
def VMap.find? {α : Type} : VMap α → String → Option α
  | [], _ => none
  | (k, v) :: rest, key => if k = key then some v else VMap.find? rest key

/-- Insert-or-assign, as writing through std::map::operator[]. -/
def VMap.set {α : Type} : VMap α → String → α → VMap α
  | [], key, v => [(key, v)]
  | (k, w) :: rest, key, v =>
    if k = key then (key, v) :: rest else (k, w) :: VMap.set rest key v

/-- Remove the entry with the given key, as std::map::erase(key). -/
def VMap.eraseKey {α : Type} : VMap α → String → VMap α
  | [], _ => []
  | (k, w) :: rest, key => if k = key then rest else (k, w) :: VMap.eraseKey rest key

theorem VMap.find?_set_self {α : Type} (m : VMap α) (k : String) (v : α) :
    VMap.find? (VMap.set m k v) k = some v := by
  induction m with
  | nil => simp [VMap.set, VMap.find?]
  | cons hd tl ih =>
    obtain ⟨hk, hv⟩ := hd
    by_cases h : hk = k
    · simp [VMap.set, VMap.find?, h]
    · simp [VMap.set, VMap.find?, h, ih]

theorem VMap.find?_set_ne {α : Type} (m : VMap α) (k k' : String) (v : α)
    (h : k' ≠ k) : VMap.find? (VMap.set m k v) k' = VMap.find? m k' := by
  have h' : ¬ k = k' := fun e => h e.symm
  induction m with
  | nil => simp [VMap.set, VMap.find?, h']
  | cons hd tl ih =>
    obtain ⟨hk, hv⟩ := hd
    by_cases hkk : hk = k
    · subst hkk
      simp [VMap.set, VMap.find?, h']
    · by_cases hk' : hk = k'
      · subst hk'
        simp [VMap.set, VMap.find?, hkk]
      · simp [VMap.set, VMap.find?, hkk, hk', ih]

/-! ### Character-level string helpers (the C++ code scans std::string) -/

/-- Does the list begin with the given pattern? -/
def startsWithL : List Char → List Char → Bool
  | _, [] => true
  | [], _ :: _ => false
  | c :: cs, p :: ps => c = p && startsWithL cs ps

/-- Left-to-right replace-all that never rescans replaced text: the
embedding of the find/replace loops in process.cpp and resource.cpp
(pos is advanced past each replacement). Each step consumes at least
one character of the remaining input, so the input length bounds the
recursion and serves as structural fuel. -/
def replaceAllFuel (pat rep : List Char) : Nat → List Char → List Char
  | _, [] => []
  | 0, l => l
  | fuel + 1, c :: cs =>
    if pat ≠ [] ∧ startsWithL (c :: cs) pat then
      rep ++ replaceAllFuel pat rep fuel (List.drop pat.length (c :: cs))
    else
      c :: replaceAllFuel pat rep fuel cs

/-- Replace every occurrence of pat by rep, scanning left to right. -/
def replaceAllL (pat rep l : List Char) : List Char :=
  replaceAllFuel pat rep l.length l

/-- Replace only the first occurrence of the pattern, the embedding of
regex replace with the first-only format flag. -/
def replaceFirstL (pat rep : List Char) : List Char → List Char
  | [] => []
  | c :: cs =>
    if pat ≠ [] ∧ startsWithL (c :: cs) pat then
      rep ++ List.drop pat.length (c :: cs)
    else
      c :: replaceFirstL pat rep cs

/-- First character class of the counter-token regex. -/
def isIdentStart (c : Char) : Bool :=
  ('a' ≤ c && c ≤ 'z') || ('A' ≤ c && c ≤ 'Z') || c = '_'

/-- Continuation character class of the counter-token regex. -/
def isIdentChar (c : Char) : Bool :=
  isIdentStart c || ('0' ≤ c && c ≤ '9')

/-- Longest identifier-character run at the head of the list. -/
def takeIdent : List Char → List Char
  | [] => []
  | c :: cs => if isIdentChar c then c :: takeIdent cs else []

/-- Identifier of the first percent token in the command, as found by
the regex used for counter substitution in startProcess: a percent sign
followed by an identifier-start character and the identifier run after
it. -/
def findPercentToken : List Char → Option (List Char)
  | [] => none
  | c :: cs =>
    if c = '%' then
      match cs with
      | [] => none
      | d :: ds =>
        if isIdentStart d then some (d :: takeIdent ds) else findPercentToken cs
    else findPercentToken cs

/-- Byte-wise string comparison used by std::map key ordering. -/
def charsLe : List Char → List Char → Bool
  | [], _ => true
  | _ :: _, [] => false
  | a :: as, b :: bs =>
    if a.toNat < b.toNat then true
    else if b.toNat < a.toNat then false
    else charsLe as bs

/-- Insert into a key-sorted association list. -/
def insertSorted {α : Type} (p : String × α) : VMap α → VMap α
  | [] => [p]
  | q :: rest => if charsLe p.1.data q.1.data then p :: q :: rest else q :: insertSorted p rest

/-- Sort an association list by key: std::map iterates in ascending key
order, which matters for the interpolation passes. -/
def sortByKey {α : Type} (m : VMap α) : VMap α := m.foldr insertSorted []

/-! ### Data model (types.hpp) -/

/-- ResourceType from types.hpp; the end field is renamed endv because
end is a Lean keyword. -/
structure ResourceType where
  name : String
  check : String
  counter : Bool
  start : Int
  endv : Int
deriving DecidableEq

/-- Resource claim record from types.hpp; the type field is renamed
rtype because type is a Lean keyword. -/
structure Resource where
  rtype : String
  value : String
  owner : String
deriving DecidableEq

/-- Template from types.hpp. -/
structure Template where
  id : String
  label : String
  command : String
  resources : List String
  vars : VMap String
  action : String
deriving DecidableEq

/-- Instance from types.hpp. Timestamps are abstract integers supplied
by the environment; the floating-point cpu_time field is not modelled
since no verified operation computes with it. -/
structure Instance where
  name : String
  template_name : String
  command : String
  pid : Int
  status : String
  resources : VMap String
  started : Int
  cwd : String
  managed : Bool
  error : String
  action : String
deriving DecidableEq

/-- ProcessInfo snapshot from types.hpp (probe output). -/
structure ProcessInfo where
  pid : Int
  ppid : Int
  name : String
  cmdline : String
  exe : String
  cwd : String
  ports : List Int
deriving DecidableEq

/-- The in-memory State of state.hpp (persistent fields only; the mutex
and inotify plumbing carry no data). -/
structure State where
  instances : VMap Instance
  templates : VMap Template
  resources : VMap Resource
  counters : VMap Int
  types : VMap ResourceType
deriving DecidableEq

/-- Oracle environment: the outcomes of every system interaction an
operation can perform. system gives the exit code of a shell command;
kill0 n p tells whether the n-th kill(p, 0) probe issued by the
operation succeeds; forkResult is the value fork() returns; probe,
discoverPid and discoverPort are the /proc readers; now is time(nullptr)
and cwd is getcwd(). -/
structure Env where
  system : String → Int
  kill0 : Nat → Int → Bool
  forkResult : Int
  probe : Int → Option ProcessInfo
  discoverPid : Int → Option ProcessInfo
  discoverPort : Int → Option ProcessInfo
  now : Int
  cwd : String

/-! ### Resource registry (resource.cpp) -/

/-- checkResource of resource.cpp: empty check means always available;
otherwise the check command is interpolated and run, and a non-zero
exit code means available. -/
def checkResource (env : Env) (rt : ResourceType) (value : String) : Bool :=
  if rt.check = "" then true
  else decide (env.system (String.mk (replaceAllL ("$\x7bvalue\x7d").data value.data rt.check.data)) ≠ 0)

/-- Errors thrown by allocateResource (runtime_error messages in the
source, one constructor per message shape). -/
inductive AllocError where
  | unknownResourceType (rtype : String)
  | noAvailable (rtype : String) (lo hi : Int)
  | explicitValueRequired (rtype : String)
  | notAvailable (rtype value : String)
deriving DecidableEq

/-- The counter scan loop of allocateResource: try successive integer
values, returning the first one the check reports available. -/
def scanCounter (env : Env) (rt : ResourceType) : Nat → Int → Option Int
  | 0, _ => none
  | fuel + 1, v =>
    if checkResource env rt (toString v) then some v
    else scanCounter env rt fuel (v + 1)

/-- allocateResource of resource.cpp. The state is returned on every
path because the C++ mutates the shared State in place: in the counter
branch, counters[rtype] default-inserts 0 when the key is absent, and a
successful scan stores v + 1. -/
def allocateResource (env : Env) (s : State) (rtype requested : String) :
    State × Except AllocError String :=
  match VMap.find? s.types rtype with
  | none => (s, .error (.unknownResourceType rtype))
  | some rt =>
    if rt.counter = true ∧ requested = "" then
      let cur0 := (VMap.find? s.counters rtype).getD 0
      let s1 : State := { s with counters := VMap.set s.counters rtype cur0 }
      let current := if cur0 = 0 then rt.start else cur0
      match scanCounter env rt (rt.endv + 1 - current).toNat current with
      | some v =>
        ({ s1 with counters := VMap.set s1.counters rtype (v + 1) }, .ok (toString v))
      | none => (s1, .error (.noAvailable rtype rt.start rt.endv))
    else
      if requested = "" then (s, .error (.explicitValueRequired rtype))
      else if checkResource env rt requested then (s, .ok requested)
      else (s, .error (.notAvailable rtype requested))

/-! ### State store operations (state.cpp) -/

/-- Key under which a claim is stored in the resources map. -/
def claimKey (rtype value : String) : String := rtype ++ ":" ++ value

/-- State::claimResource: unconditionally installs the record, silently
overwriting any existing claim under the same key. -/
def State.claimResource (s : State) (rtype value owner : String) : State :=
  { s with resources := VMap.set s.resources (claimKey rtype value) ⟨rtype, value, owner⟩ }

/-- State::releaseResources: erase every claim whose owner matches. -/
def State.releaseResources (s : State) (owner : String) : State :=
  { s with resources := s.resources.filter (fun kv => kv.2.owner != owner) }

/-- Helper mirroring assignment through state->instances[name]. -/
def State.setInstance (s : State) (name : String) (inst : Instance) : State :=
  { s with instances := VMap.set s.instances name inst }

/-- The built-in resource types seeded by defaultResourceTypes in
resource.cpp. -/
def defaultResourceTypes : VMap ResourceType :=
  [ ("tcpport", ⟨"tcpport", "nc -z localhost $\x7bvalue\x7d", true, 3000, 9999⟩),
    ("vncport", ⟨"vncport", "nc -z localhost $\x7bvalue\x7d", true, 5900, 5999⟩),
    ("serialport", ⟨"serialport", "nc -z localhost $\x7bvalue\x7d", true, 9600, 9699⟩),
    ("dbfile", ⟨"dbfile", "test -f $\x7bvalue\x7d", false, 0, 0⟩),
    ("socket", ⟨"socket", "test -S $\x7bvalue\x7d", false, 0, 0⟩),
    ("datadir", ⟨"datadir", "", false, 0, 0⟩),
    ("workdir", ⟨"workdir", "", false, 0, 0⟩) ]

/-- The default templates seeded by State::loadDefaultTemplates. -/
def defaultTemplates : VMap Template :=
  [ ("postgres",
     ⟨"postgres", "PostgreSQL Database",
      "postgres -D $\x7bdatadir\x7d -p $\x7btcpport\x7d",
      ["tcpport", "datadir"], [("datadir", "/tmp/pgdata")], ""⟩),
    ("node-express",
     ⟨"node-express", "Node.js Express Server",
      "node server.js --port $\x7btcpport\x7d",
      ["tcpport"], [], ""⟩),
    ("qemu",
     ⟨"qemu", "QEMU Virtual Machine",
      "qemu-system-x86_64 -vnc :$\x7bvncport\x7d -serial tcp::$\x7bserialport\x7d,server,nowait $\x7bargs\x7d",
      ["vncport", "serialport"], [("args", "-m 2G")], ""⟩) ]

/-- The state constructed by State::State() on first start (no state
file): default templates and resource types, everything else empty. -/
def initialState : State :=
  { instances := [], templates := defaultTemplates, resources := [],
    counters := [], types := defaultResourceTypes }

/-! ### Process lifecycle (process.cpp) -/

/-- isProcessRunning of process.cpp: the raw result of kill(pid, 0) == 0
with no guard on the pid value. The kill outcome is an oracle. -/
def isProcessRunning (kill0succeeds : Int → Bool) (pid : Int) : Bool :=
  kill0succeeds pid

/-- canManageProcess of process.cpp: identical to isProcessRunning. -/
def canManageProcess (kill0succeeds : Int → Bool) (pid : Int) : Bool :=
  kill0succeeds pid

/-- POSIX semantics of the signal-0 probe for pid 0: kill(0, 0) checks
the caller's own process group, which always contains the live caller,
so it succeeds. -/
def PosixKill (k : Int → Bool) : Prop := k 0 = true

/-- Errors thrown by startProcess, tagged by the phase that failed. -/
inductive StartError where
  | alreadyExists (name : String)
  | resourceAllocationFailed (e : AllocError)
  | counterAllocationFailed (e : AllocError)
  | forkFailed
deriving DecidableEq

/-- Phase 1 of startProcess: allocate each required resource type in
declaration order, recording the value as a claim, in the instance map
and back into the variable map; on failure release everything this
attempt claimed and propagate. -/
def allocLoop (env : Env) (name : String) :
    List String → State → Instance → VMap String →
    State × Except StartError (Instance × VMap String)
  | [], s, inst, fvars => (s, .ok (inst, fvars))
  | rtype :: rest, s, inst, fvars =>
    let req := (VMap.find? fvars rtype).getD ""
    match allocateResource env s rtype req with
    | (s1, .ok value) =>
      allocLoop env name rest (State.claimResource s1 rtype value name)
        { inst with resources := VMap.set inst.resources rtype value }
        (VMap.set fvars rtype value)
    | (s1, .error e) =>
      (State.releaseResources s1 name, .error (.resourceAllocationFailed e))

/-- Interpolation pass replacing each variable placeholder with its
value; std::map iterates variables in ascending key order. -/
def substVars (vars : VMap String) (s : String) : String :=
  (sortByKey vars).foldl
    (fun acc kv =>
      String.mk (replaceAllL ("$\x7b" ++ kv.1 ++ "\x7d").data kv.2.data acc.data))
    s

/-- The percent-counter substitution loop of startProcess: while the
command contains a percent token, allocate that counter type, claim it,
record it in the instance, and replace the first occurrence. Each
successful round replaces one percent sign with a digit string, so the
command length bounds the number of rounds; if fuel runs out the loop
has no token left to find and the command passes through. -/
def counterLoop (env : Env) (name : String) :
    Nat → State → Instance → List Char →
    State × Except StartError (Instance × List Char)
  | 0, s, inst, cmd => (s, .ok (inst, cmd))
  | fuel + 1, s, inst, cmd =>
    match findPercentToken cmd with
    | none => (s, .ok (inst, cmd))
    | some ident =>
      let counter := String.mk ident
      match allocateResource env s counter "" with
      | (s1, .ok value) =>
        counterLoop env name fuel
          (State.claimResource s1 counter value name)
          { inst with resources := VMap.set inst.resources counter value }
          (replaceFirstL ('%' :: ident) value.data cmd)
      | (s1, .error e) =>
        (State.releaseResources s1 name, .error (.counterAllocationFailed e))

/-- The fresh instance built at the top of startProcess. -/
def startInst0 (tmpl : Template) (name : String) : Instance :=
  { name := name, template_name := tmpl.id, command := "", pid := 0,
    status := "starting", resources := [], started := 0, cwd := "",
    managed := false, error := "", action := "" }

/-- Merge template default variables with caller variables, caller
winning on duplicate keys. -/
def mergeVars (defaults vars : VMap String) : VMap String :=
  List.foldl (fun m kv => VMap.set m kv.1 kv.2) defaults vars

/-- The instance record completed by the parent after a successful
fork: final command, interpolated action, pid, running status,
timestamp, supervisor cwd and the managed flag. -/
def startFinish (env : Env) (tmpl : Template) (fvars : VMap String)
    (inst2 : Instance) (cmdc : List Char) : Instance :=
  { (if tmpl.action = "" then { inst2 with command := String.mk cmdc }
     else { inst2 with
            command := String.mk cmdc
            action := substVars inst2.resources (substVars fvars tmpl.action) }) with
    pid := env.forkResult, status := "running"
    started := env.now, managed := true, cwd := env.cwd }

/-- startProcess of process.cpp: name-collision check, variable merge,
resource allocation, command and action interpolation, fork, and
recording of the running instance. The reaper thread is outside this
state transition. -/
def startProcess (env : Env) (s : State) (tmpl : Template) (name : String)
    (vars : VMap String) : State × Except StartError Instance :=
  if (VMap.find? s.instances name).isSome then
    (s, .error (.alreadyExists name))
  else
    match allocLoop env name tmpl.resources s (startInst0 tmpl name)
        (mergeVars tmpl.vars vars) with
    | (s1, .error e) => (s1, .error e)
    | (s1, .ok (inst1, fvars)) =>
      match counterLoop env name (substVars fvars tmpl.command).data.length s1
          inst1 (substVars fvars tmpl.command).data with
      | (s2, .error e) => (s2, .error e)
      | (s2, .ok (inst2, cmdc)) =>
        if env.forkResult = -1 then
          (State.releaseResources s2 name, .error .forkFailed)
        else
          (State.setInstance s2 name (startFinish env tmpl fvars inst2 cmdc),
           .ok (startFinish env tmpl fvars inst2 cmdc))

/-- One signal sent by the supervisor: kill target and signal number
(15 for SIGTERM, 9 for SIGKILL). -/
structure Sig where
  target : Int
  signum : Nat
deriving DecidableEq

/-- The poll loop of stopProcess: probe liveness up to twenty times,
breaking at the first probe that reports death; returns the index of
the probe performed after the loop. -/
def stopLoopProbes (k : Nat → Int → Bool) (pid : Int) : Nat → Nat → Nat
  | 0, i => i
  | fuel + 1, i => if k i pid then stopLoopProbes k pid fuel (i + 1) else i + 1

/-- stopProcess of process.cpp, applied to the named instance in the
store (callers pass state->instances[name]). Returns the new state, the
boolean result, and the list of signals sent. With pid zero it returns
false touching nothing; otherwise it signals the process group with
SIGTERM, polls, sends SIGKILL if the final probe still reports life,
and unconditionally records status stopped with pid zero. -/
def stopProcess (env : Env) (s : State) (name : String) :
    State × Bool × List Sig :=
  match VMap.find? s.instances name with
  | none => (s, false, [])
  | some inst =>
    if inst.pid = 0 then (s, false, [])
    else
      let pgid := inst.pid
      let post := stopLoopProbes env.kill0 inst.pid 20 0
      let sigs :=
        if env.kill0 post inst.pid then [Sig.mk (-pgid) 15, Sig.mk (-pgid) 9]
        else [Sig.mk (-pgid) 15]
      (State.setInstance s name { inst with status := "stopped", pid := 0 },
       true, sigs)

/-- The re-verification loop of restartProcess: for each previously
recorded resource (std::map order, so sorted by key), fail without
cleanup if the type is unknown or the check reports unavailable,
otherwise re-claim it. -/
def restartClaims (env : Env) (name : String) :
    List (String × String) → State → State × Bool
  | [], s => (s, true)
  | (rtype, value) :: rest, s =>
    match VMap.find? s.types rtype with
    | none => (s, false)
    | some rt =>
      if checkResource env rt value then
        restartClaims env name rest (State.claimResource s rtype value name)
      else (s, false)

/-- restartProcess of process.cpp, applied to the named instance in the
store. Only fork failure releases claims and marks the error status;
earlier failures return false leaving the state as accumulated. -/
def restartProcess (env : Env) (s : State) (name : String) : State × Bool :=
  match VMap.find? s.instances name with
  | none => (s, false)
  | some inst =>
    if inst.status ≠ "stopped" then (s, false)
    else
      match restartClaims env name (sortByKey inst.resources) s with
      | (s1, false) => (s1, false)
      | (s1, true) =>
        if env.forkResult = -1 then
          (State.setInstance (State.releaseResources s1 name) name
            { inst with status := "error", error := "failed to fork process" },
           false)
        else
          (State.setInstance s1 name
            { inst with
              pid := env.forkResult, status := "running"
              started := env.now, error := "" },
           true)

/-- Errors thrown by monitorProcess and the discover-import entries. -/
inductive MonitorError where
  | alreadyExists (name : String)
  | notRunning (pid : Int)
  | cannotRead (pid : Int)
deriving DecidableEq

/-- The port-claiming loop of monitorProcess: the first listening port
is recorded under key tcpport, later ones under tcpport1, tcpport2, and
each is claimed for the instance. -/
def claimPorts (name : String) :
    List Int → Nat → State → Instance → State × Instance
  | [], _, s, inst => (s, inst)
  | port :: rest, i, s, inst =>
    let key := if i = 0 then "tcpport" else "tcpport" ++ toString i
    let value := toString port
    claimPorts name rest (i + 1) (State.claimResource s key value name)
      { inst with resources := VMap.set inst.resources key value }

/-- monitorProcess of process.cpp: adopt a live external process. The
managed flag is set from canManageProcess, a second kill probe. The
working directory, when known, is recorded in the instance resources
without any claim. The poll-based death watcher is outside this state
transition. -/
def monitorProcess (env : Env) (s : State) (pid : Int) (name : String) :
    State × Except MonitorError Instance :=
  if (VMap.find? s.instances name).isSome then
    (s, .error (.alreadyExists name))
  else if isProcessRunning (env.kill0 0) pid = false then
    (s, .error (.notRunning pid))
  else
    match env.probe pid with
    | none => (s, .error (.cannotRead pid))
    | some info =>
      let inst0 : Instance :=
        { name := name, template_name := "", command := info.cmdline,
          pid := pid, status := "running", resources := [],
          started := env.now, cwd := info.cwd,
          managed := canManageProcess (env.kill0 1) pid, error := "",
          action := "" }
      let p := claimPorts name info.ports 0 s inst0
      let inst2 :=
        if info.cwd ≠ "" then
          { p.2 with resources := VMap.set p.2.resources "workdir" info.cwd }
        else p.2
      (State.setInstance p.1 name inst2, .ok inst2)

/-- discoverAndImportProcess of process.cpp: wrap a discovered process
as an unmanaged instance with template id discovered; no resources and
no claims are recorded. -/
def discoverAndImportProcess (env : Env) (s : State) (pid : Int)
    (name : String) : State × Except MonitorError Instance :=
  if (VMap.find? s.instances name).isSome then
    (s, .error (.alreadyExists name))
  else
    match env.discoverPid pid with
    | none => (s, .error (.cannotRead pid))
    | some info =>
      let inst : Instance :=
        { name := name, template_name := "discovered", command := info.cmdline,
          pid := pid, status := "running", resources := [],
          started := env.now, cwd := "", managed := false, error := "",
          action := "" }
      (State.setInstance s name inst, .ok inst)

/-- discoverAndImportProcessOnPort of process.cpp: as the pid variant,
but the port is recorded in the instance resources map under tcpport;
no claim is installed in the claims table. -/
def discoverAndImportProcessOnPort (env : Env) (s : State) (port : Int)
    (name : String) : State × Except MonitorError Instance :=
  if (VMap.find? s.instances name).isSome then
    (s, .error (.alreadyExists name))
  else
    match env.discoverPort port with
    | none => (s, .error (.cannotRead port))
    | some info =>
      let inst : Instance :=
        { name := name, template_name := "discovered", command := info.cmdline,
          pid := info.pid, status := "running",
          resources := VMap.set [] "tcpport" (toString port),
          started := env.now, cwd := "", managed := false, error := "",
          action := "" }
      (State.setInstance s name inst, .ok inst)

/-- The delete action of the HTTP handler in api.cpp: erase the
instance if present; resources are not released. -/
def deleteInstanceHttp (s : State) (name : String) : State :=
  { s with instances := VMap.eraseKey s.instances name }

/-! ### Operation sequences over the store -/

/-- One core operation, carrying the oracle environment in effect when
it runs. -/
inductive Op where
  | start (env : Env) (tmpl : Template) (name : String) (vars : VMap String)
  | stop (env : Env) (name : String)
  | httpDelete (name : String)
  | monitor (env : Env) (pid : Int) (name : String)
  | importPid (env : Env) (pid : Int) (name : String)
  | importPort (env : Env) (port : Int) (name : String)

/-- Apply one operation; none when the operation reports failure. The
HTTP delete handler always reports success. -/
def applyOp (s : State) : Op → Option State
  | .start env tmpl name vars =>
    match startProcess env s tmpl name vars with
    | (s1, .ok _) => some s1
    | (_, .error _) => none
  | .stop env name =>
    let r := stopProcess env s name
    if r.2.1 then some r.1 else none
  | .httpDelete name => some (deleteInstanceHttp s name)
  | .monitor env pid name =>
    match monitorProcess env s pid name with
    | (s1, .ok _) => some s1
    | (_, .error _) => none
  | .importPid env pid name =>
    match discoverAndImportProcess env s pid name with
    | (s1, .ok _) => some s1
    | (_, .error _) => none
  | .importPort env port name =>
    match discoverAndImportProcessOnPort env s port name with
    | (s1, .ok _) => some s1
    | (_, .error _) => none

/-- Run a sequence of operations, succeeding only if every operation
succeeds. -/
def runOps : State → List Op → Option State
  | s, [] => some s
  | s, op :: rest =>
    match applyOp s op with
    | some s1 => runOps s1 rest
    | none => none

/-- One claim record is backed: its owner names an instance whose
resources map contains the claimed pair. -/
def claimBacked (s : State) (kv : String × Resource) : Bool :=
  match VMap.find? s.instances kv.2.owner with
  | none => false
  | some inst => decide (VMap.find? inst.resources kv.2.rtype = some kv.2.value)

/-- One instance resource entry is claimed: the claims table maps its
key to exactly this pair owned by this instance. -/
def resourceClaimed (s : State) (name : String) (rv : String × String) : Bool :=
  decide (VMap.find? s.resources (claimKey rv.1 rv.2) = some ⟨rv.1, rv.2, name⟩)

/-- Invariant I2 of the specification: claims and instance resource
maps back each other exactly. -/
def stateConsistent (s : State) : Bool :=
  s.resources.all (claimBacked s) &&
  s.instances.all (fun ni => ni.2.resources.all (resourceClaimed s ni.1))

/-! ### Basic lemmas about the embedded operations -/

theorem scanCounter_some_spec (env : Env) (rt : ResourceType) :
    ∀ (fuel : Nat) (v w : Int), scanCounter env rt fuel v = some w →
      v ≤ w ∧ w < v + fuel ∧ checkResource env rt (toString w) = true ∧
      ∀ u : Int, v ≤ u → u < w → checkResource env rt (toString u) = false := by
  intro fuel
  induction fuel with
  | zero => intro v w h; cases h
  | succ n ih =>
    intro v w h
    unfold scanCounter at h
    by_cases hc : checkResource env rt (toString v) = true
    · rw [if_pos hc] at h
      obtain rfl : v = w := Option.some.inj h
      exact ⟨le_refl v, by omega, hc, fun u h1 h2 => absurd (lt_of_le_of_lt h1 h2) (lt_irrefl v)⟩
    · rw [if_neg hc] at h
      obtain ⟨h1, h2, h3, h4⟩ := ih (v + 1) w h
      refine ⟨by omega, by push_cast at h2 ⊢; omega, h3, ?_⟩
      intro u hu1 hu2
      by_cases huv : u = v
      · subst huv; exact Bool.not_eq_true _ ▸ (by simpa using hc)
      · exact h4 u (by omega) hu2

theorem scanCounter_none_spec (env : Env) (rt : ResourceType) :
    ∀ (fuel : Nat) (v : Int), scanCounter env rt fuel v = none →
      ∀ u : Int, v ≤ u → u < v + fuel → checkResource env rt (toString u) = false := by
  intro fuel
  induction fuel with
  | zero => intro v _ u h1 h2; omega
  | succ n ih =>
    intro v h u h1 h2
    unfold scanCounter at h
    by_cases hc : checkResource env rt (toString v) = true
    · rw [if_pos hc] at h; cases h
    · rw [if_neg hc] at h
      by_cases huv : u = v
      · subst huv; exact Bool.not_eq_true _ ▸ (by simpa using hc)
      · exact ih (v + 1) h u (by omega) (by push_cast at h2 ⊢; omega)

theorem allocateResource_instances (env : Env) (s : State) (rtype req : String) :
    (allocateResource env s rtype req).1.instances = s.instances := by
  unfold allocateResource
  split
  · rfl
  · split
    · dsimp only
      split <;> rfl
    · split
      · rfl
      · split <;> rfl

theorem allocateResource_resources (env : Env) (s : State) (rtype req : String) :
    (allocateResource env s rtype req).1.resources = s.resources := by
  unfold allocateResource
  split
  · rfl
  · split
    · dsimp only
      split <;> rfl
    · split
      · rfl
      · split <;> rfl

theorem releaseResources_owner_ne (s : State) (o : String) :
    ∀ kv ∈ (State.releaseResources s o).resources, kv.2.owner ≠ o := by
  intro kv hkv
  have h := (List.mem_filter.mp hkv).2
  simpa [bne_iff_ne] using h

/-- Where the counter scan begins: the stored cursor when it is
non-zero, else the range start. -/
def scanStart (s : State) (rtype : String) (rt : ResourceType) : Int :=
  if (VMap.find? s.counters rtype).getD 0 = 0 then rt.start
  else (VMap.find? s.counters rtype).getD 0

/-- The cursor value of a counter type as the code reads it:
map lookup defaulting to zero. -/
def cursorOf (s : State) (t : String) : Int :=
  (VMap.find? s.counters t).getD 0

theorem allocateResource_counter_eq (env : Env) (s : State) (rtype : String)
    (rt : ResourceType) (hrt : VMap.find? s.types rtype = some rt)
    (hc : rt.counter = true) :
    allocateResource env s rtype "" =
      (match scanCounter env rt (rt.endv + 1 - scanStart s rtype rt).toNat
          (scanStart s rtype rt) with
       | some v =>
         ({ s with
            counters := VMap.set
              (VMap.set s.counters rtype ((VMap.find? s.counters rtype).getD 0))
              rtype (v + 1) },
          .ok (toString v))
       | none =>
         ({ s with
            counters :=
              VMap.set s.counters rtype ((VMap.find? s.counters rtype).getD 0) },
          .error (.noAvailable rtype rt.start rt.endv))) := by
  unfold allocateResource
  rw [hrt]
  dsimp only
  rw [if_pos (⟨hc, rfl⟩ : rt.counter = true ∧ ("" : String) = "")]
  rfl

/-! ### Concrete oracle environments and inputs used in the claims -/

/-- Fallback instance used when projecting from an Except value. -/
def dummyInstance : Instance :=
  ⟨"", "", "", 0, "", [], 0, "", false, "", ""⟩

/-- A discovered server process listening on port 8080. -/
def piSrv : ProcessInfo :=
  ⟨42, 1, "srv", "srv --port 8080", "/usr/bin/srv", "/home/u", [8080]⟩

/-- World where every check command exits 1 (all resources available),
every kill probe succeeds, fork returns pid 77, and the probes see
piSrv. -/
def envAvail : Env :=
  ⟨fun _ => 1, fun _ _ => true, 77, fun _ => some piSrv, fun _ => some piSrv,
   fun _ => some piSrv, 1000, "/home/u"⟩

/-- World where every check command exits 0 (nothing available). -/
def envBusy : Env := { envAvail with system := fun _ => 0 }

/-- World where every kill probe fails (no signalable process). -/
def envDead : Env := { envAvail with kill0 := fun _ _ => false }

/-- The built-in tcpport resource type record. -/
def rtTcp : ResourceType :=
  ⟨"tcpport", "nc -z localhost $\x7bvalue\x7d", true, 3000, 9999⟩

/-! ### Claim C9 -/

/-- Kill oracle of a world obeying POSIX where no positive pid is
signalable. -/
def kPosix : Int → Bool := fun p => p == 0

/-- Claim C9, as stated, is false: isProcessRunning is the raw result
of kill(pid, 0) == 0 with no guard, and on POSIX the probe kill(0, 0)
targets the caller's own process group and succeeds, so
isProcessRunning(0) returns true, not false. -/
theorem c9_counterexample :
    ¬ (∀ k : Int → Bool, PosixKill k → ∀ pid : Int, pid ≤ 0 →
        isProcessRunning k pid = false) := by
  intro h
  exact absurd (h kPosix rfl 0 le_rfl) (by decide)

/-- Claim C9 amended: isProcessRunning(pid) returns exactly the result
of the kill(pid, 0) == 0 probe, with no guard on the pid; in
particular, under POSIX semantics of kill on pid 0 it returns true for
pid 0. -/
theorem c9_pid_zero (k : Int → Bool) (h : PosixKill k) :
    isProcessRunning k 0 = true ∧
    ∀ pid : Int, isProcessRunning k pid = k pid :=
  ⟨h, fun _ => rfl⟩

/-- Witness instantiating c9_pid_zero at the concrete oracle kPosix. -/
theorem c9_witness :
    PosixKill kPosix ∧
    (isProcessRunning kPosix 0 = true ∧
     ∀ pid : Int, isProcessRunning kPosix pid = kPosix pid) :=
  ⟨rfl, c9_pid_zero kPosix rfl⟩

/-! ### Claim C10 -/

/-- Claim C10: claimResource installs the caller as the owner under key
type:value, silently overwriting whatever claim was there (the lookup
now yields the new record whatever the map held before), it cannot
fail, it leaves all other keys untouched, and it does not touch the
instance table. -/
theorem c10_claim_overwrites (s : State) (rtype value owner : String) :
    VMap.find? (State.claimResource s rtype value owner).resources
        (claimKey rtype value) = some ⟨rtype, value, owner⟩ ∧
    (∀ k, k ≠ claimKey rtype value →
      VMap.find? (State.claimResource s rtype value owner).resources k =
        VMap.find? s.resources k) ∧
    (State.claimResource s rtype value owner).instances = s.instances :=
  ⟨VMap.find?_set_self _ _ _, fun _ hk => VMap.find?_set_ne _ _ _ _ hk, rfl⟩

/-- A store holding a claim on tcpport 3000 owned by instance a. -/
def c10S : State :=
  { initialState with resources := [("tcpport:3000", ⟨"tcpport", "3000", "a"⟩)] }

/-- Witness: claiming tcpport 3000 for b over the existing claim of a
transfers ownership to b. -/
theorem c10_witness :
    VMap.find? (State.claimResource c10S "tcpport" "3000" "b").resources
        (claimKey "tcpport" "3000") = some ⟨"tcpport", "3000", "b"⟩ ∧
    (∀ k, k ≠ claimKey "tcpport" "3000" →
      VMap.find? (State.claimResource c10S "tcpport" "3000" "b").resources k =
        VMap.find? c10S.resources k) ∧
    (State.claimResource c10S "tcpport" "3000" "b").instances =
      c10S.instances :=
  c10_claim_overwrites c10S "tcpport" "3000" "b"

/-! ### Claim C4 -/

/-- The instance produced by adopting live pid 42 under the name used
by the repository's own test. -/
def c4Inst : Instance :=
  ((monitorProcess envAvail initialState 42 "monitored-sleep").2.toOption).getD
    dummyInstance

/-- Claim C4 evaluated at the failing input: adopting a live process by
monitor(42, "monitored-sleep") yields an instance with managed = true,
because monitorProcess sets managed from canManageProcess, the same
kill probe that just reported the process alive. The claim, invariant
I5 of the specification and the assertion in test_core.cpp line 257
require managed = false here. -/
theorem c4_monitor_sets_managed :
    (monitorProcess envAvail initialState 42 "monitored-sleep").2 =
      .ok c4Inst ∧
    c4Inst.managed = true ∧ c4Inst.pid = 42 ∧ c4Inst.status = "running" :=
  ⟨rfl, rfl, rfl, rfl⟩

/-! ### Claim C2 -/

/-- A counter type with range 3000 to 9999 and no check command. -/
def rtSlot : ResourceType := ⟨"slot", "", true, 3000, 9999⟩

/-- A store whose slot cursor is 5, below the range start: such a state
is loadable from the persisted counters map, and arises in one run when
a counter type is redefined through the resource-type endpoint with a
larger start after allocations under the old range. -/
def c2S : State :=
  { initialState with
    types := VMap.set initialState.types "slot" rtSlot
    counters := [("slot", 5)] }

/-- The store after the automatic slot allocation on c2S. -/
def c2S' : State := (allocateResource envAvail c2S "slot" "").1

/-- Claim C2, as stated, is false: with cursor 5 and range start 3000
the scan begins at 5, not at max(cursor, start) = 3000, and the value
returned lies outside the inclusive range. With every value available,
allocation on c2S returns 5 and advances the cursor to 6, so no n with
start less-or-equal n can satisfy the claimed characterization. -/
theorem c2_counterexample :
    ¬ (∀ (env : Env) (s : State) (rtype : String) (rt : ResourceType)
        (s' : State) (v : String),
        VMap.find? s.types rtype = some rt → rt.counter = true →
        allocateResource env s rtype "" = (s', .ok v) →
        ∃ n : Int, v = toString n ∧ rt.start ≤ n ∧ n ≤ rt.endv ∧
          VMap.find? s'.counters rtype = some (n + 1)) := by
  intro h
  obtain ⟨n, _, hlo, _, hcur⟩ :=
    h envAvail c2S "slot" rtSlot c2S' "5" rfl rfl rfl
  have h6 : VMap.find? c2S'.counters "slot" = some 6 := rfl
  rw [h6] at hcur
  have h2 : (6 : Int) = n + 1 := Option.some.inj hcur
  have h3 : (3000 : Int) ≤ n := hlo
  omega

/-- Claim C2 amended: the scan starts at the cursor when it is
non-zero and at the range start otherwise (this agrees with
max(cursor, start) whenever the cursor is zero or at least the start,
which covers every state this supervisor run produces from defaults);
the first value from the scan start up to the range end that the check
reports available is returned, the cursor is advanced to value + 1, and
if no value from the scan start through the end is available the call
fails with NoAvailable. -/
theorem c2_allocate_counter (env : Env) (s : State) (rtype : String)
    (rt : ResourceType) (hrt : VMap.find? s.types rtype = some rt)
    (hc : rt.counter = true) :
    (∀ s' v, allocateResource env s rtype "" = (s', .ok v) →
      ∃ n : Int, v = toString n ∧ scanStart s rtype rt ≤ n ∧ n ≤ rt.endv ∧
        checkResource env rt (toString n) = true ∧
        (∀ u : Int, scanStart s rtype rt ≤ u → u < n →
          checkResource env rt (toString u) = false) ∧
        VMap.find? s'.counters rtype = some (n + 1)) ∧
    (∀ s' e, allocateResource env s rtype "" = (s', .error e) →
      e = .noAvailable rtype rt.start rt.endv ∧
      ∀ u : Int, scanStart s rtype rt ≤ u → u ≤ rt.endv →
        checkResource env rt (toString u) = false) := by
  have heq := allocateResource_counter_eq env s rtype rt hrt hc
  constructor
  · intro s' v h
    rw [heq] at h
    cases hscan : scanCounter env rt (rt.endv + 1 - scanStart s rtype rt).toNat
        (scanStart s rtype rt) with
    | none => rw [hscan] at h; exact Except.noConfusion (congrArg Prod.snd h)
    | some n =>
      rw [hscan] at h
      obtain ⟨h1, h2, h3, h4⟩ := scanCounter_some_spec env rt _ _ _ hscan
      have hv : v = toString n := (Except.ok.inj (congrArg Prod.snd h)).symm
      have hs' : s' = { s with
          counters := VMap.set
            (VMap.set s.counters rtype ((VMap.find? s.counters rtype).getD 0))
            rtype (n + 1) } := (congrArg Prod.fst h).symm
      refine ⟨n, hv, h1, by omega, h3, h4, ?_⟩
      rw [hs']
      exact VMap.find?_set_self _ _ _
  · intro s' e h
    rw [heq] at h
    cases hscan : scanCounter env rt (rt.endv + 1 - scanStart s rtype rt).toNat
        (scanStart s rtype rt) with
    | some n => rw [hscan] at h; exact Except.noConfusion (congrArg Prod.snd h)
    | none =>
      rw [hscan] at h
      have he : e = .noAvailable rtype rt.start rt.endv :=
        (Except.error.inj (congrArg Prod.snd h)).symm
      refine ⟨he, fun u hu1 hu2 => ?_⟩
      exact scanCounter_none_spec env rt _ _ hscan u hu1 (by omega)

/-- Witness instantiating c2_allocate_counter at the first tcpport
allocation from the initial state with everything available. -/
theorem c2_witness :
    VMap.find? initialState.types "tcpport" = some rtTcp ∧
    rtTcp.counter = true ∧
    ((∀ s' v, allocateResource envAvail initialState "tcpport" "" = (s', .ok v) →
      ∃ n : Int, v = toString n ∧
        scanStart initialState "tcpport" rtTcp ≤ n ∧ n ≤ rtTcp.endv ∧
        checkResource envAvail rtTcp (toString n) = true ∧
        (∀ u : Int, scanStart initialState "tcpport" rtTcp ≤ u → u < n →
          checkResource envAvail rtTcp (toString u) = false) ∧
        VMap.find? s'.counters "tcpport" = some (n + 1)) ∧
    (∀ s' e, allocateResource envAvail initialState "tcpport" "" = (s', .error e) →
      e = .noAvailable "tcpport" rtTcp.start rtTcp.endv ∧
      ∀ u : Int, scanStart initialState "tcpport" rtTcp ≤ u → u ≤ rtTcp.endv →
        checkResource envAvail rtTcp (toString u) = false)) :=
  ⟨rfl, rfl, c2_allocate_counter envAvail initialState "tcpport" rtTcp rfl rfl⟩

/-! ### Claim C6 -/

/-- A counter type with a negative range, installable at runtime
through the resource-type endpoint which accepts any start value. -/
def rtNeg : ResourceType := ⟨"neg", "probe $\x7bvalue\x7d", true, -5, -5⟩

/-- The initial store extended with the neg type. -/
def c6S : State :=
  { initialState with types := VMap.set initialState.types "neg" rtNeg }

/-- The store after a failed allocation of neg (nothing available):
the counters map now stores cursor 0 for neg, inserted by the map
subscript in the counter branch. -/
def c6S1 : State := (allocateResource envBusy c6S "neg" "").1

/-- The store after a successful allocation of neg from c6S1. -/
def c6S2 : State := (allocateResource envAvail c6S1 "neg" "").1

/-- Claim C6, as stated, is false: two allocate calls in one supervisor
run move the neg cursor from 0 to -4. The first call exhausts the range
and stores cursor 0; the second call succeeds at value -5 and stores
-5 + 1 = -4, a decrease. -/
theorem c6_counterexample :
    (allocateResource envBusy c6S "neg" "").2 =
      .error (.noAvailable "neg" (-5) (-5)) ∧
    cursorOf c6S1 "neg" = 0 ∧
    (allocateResource envAvail c6S1 "neg" "").2 = .ok "-5" ∧
    cursorOf c6S2 "neg" = -4 ∧
    ¬ (∀ (env : Env) (s : State) (rtype req : String),
        cursorOf s rtype ≤ cursorOf (allocateResource env s rtype req).1 rtype) := by
  refine ⟨rfl, rfl, rfl, rfl, ?_⟩
  intro h
  exact absurd (h envAvail c6S1 "neg" "") (by decide)

/-- Claim C6 amended: release and claim never touch any counter, and
the cursor of an allocated type never decreases provided the type's
range start is non-negative, as it is for every built-in type (a
negative start, installable through the runtime type endpoint, can pull
a zero cursor below zero). Moreover an automatic allocation performed
while the stored cursor is non-zero returns a value at least the
cursor, so released values below the cursor are not reused. -/
theorem c6_cursor_monotone :
    (∀ s o, (State.releaseResources s o).counters = s.counters) ∧
    (∀ s t v o, (State.claimResource s t v o).counters = s.counters) ∧
    (∀ (env : Env) (s : State) (rtype req : String) (rt : ResourceType),
      VMap.find? s.types rtype = some rt → 0 ≤ rt.start →
      ∀ t, cursorOf s t ≤ cursorOf (allocateResource env s rtype req).1 t) ∧
    (∀ (env : Env) (s : State) (rtype : String) (s' : State) (v : String),
      allocateResource env s rtype "" = (s', .ok v) →
      cursorOf s rtype ≠ 0 →
      ∃ n : Int, v = toString n ∧ cursorOf s rtype ≤ n) := by
  refine ⟨fun _ _ => rfl, fun _ _ _ _ => rfl, ?_, ?_⟩
  · intro env s rtype req rt hrt hstart t
    unfold allocateResource
    rw [hrt]
    dsimp only
    by_cases hb : rt.counter = true ∧ req = ""
    · rw [if_pos hb]
      cases hscan : scanCounter env rt
          (rt.endv + 1 -
            (if (VMap.find? s.counters rtype).getD 0 = 0 then rt.start
             else (VMap.find? s.counters rtype).getD 0)).toNat
          (if (VMap.find? s.counters rtype).getD 0 = 0 then rt.start
           else (VMap.find? s.counters rtype).getD 0) with
      | some n =>
        dsimp only
        obtain ⟨h1, _, _, _⟩ := scanCounter_some_spec env rt _ _ _ hscan
        by_cases ht : t = rtype
        · subst ht
          unfold cursorOf
          rw [VMap.find?_set_self]
          by_cases hz : (VMap.find? s.counters t).getD 0 = 0
          · rw [hz] at h1 ⊢
            rw [if_pos rfl] at h1
            simp only [Option.getD_some]
            omega
          · rw [if_neg hz] at h1
            simp only [Option.getD_some]
            omega
        · unfold cursorOf
          rw [VMap.find?_set_ne _ _ _ _ ht, VMap.find?_set_ne _ _ _ _ ht]
      | none =>
        dsimp only
        by_cases ht : t = rtype
        · subst ht
          unfold cursorOf
          rw [VMap.find?_set_self]
          simp only [Option.getD_some]
          exact le_refl _
        · unfold cursorOf
          rw [VMap.find?_set_ne _ _ _ _ ht]
    · rw [if_neg hb]
      split
      · exact le_refl _
      · split <;> exact le_refl _
  · intro env s rtype s' v h hcz
    cases hfind : VMap.find? s.types rtype with
    | none =>
      unfold allocateResource at h
      rw [hfind] at h
      exact Except.noConfusion (congrArg Prod.snd h)
    | some rt =>
      by_cases hc : rt.counter = true
      · have heq := allocateResource_counter_eq env s rtype rt hfind hc
        rw [heq] at h
        cases hscan : scanCounter env rt
            (rt.endv + 1 - scanStart s rtype rt).toNat (scanStart s rtype rt) with
        | none => rw [hscan] at h; exact Except.noConfusion (congrArg Prod.snd h)
        | some n =>
          rw [hscan] at h
          obtain ⟨h1, _, _, _⟩ := scanCounter_some_spec env rt _ _ _ hscan
          refine ⟨n, (Except.ok.inj (congrArg Prod.snd h)).symm, ?_⟩
          unfold scanStart at h1
          unfold cursorOf at hcz ⊢
          rw [if_neg hcz] at h1
          exact h1
      · unfold allocateResource at h
        rw [hfind] at h
        dsimp only at h
        rw [if_neg (fun hx => hc hx.1)] at h
        rw [if_pos rfl] at h
        exact Except.noConfusion (congrArg Prod.snd h)

/-- Witness instantiating the allocate conjuncts of c6_cursor_monotone
at concrete inputs: the first tcpport allocation from the initial
state, and a slot allocation from the cursor-5 store of c2S. -/
theorem c6_witness :
    (VMap.find? initialState.types "tcpport" = some rtTcp ∧
     (0 : Int) ≤ rtTcp.start ∧
     cursorOf initialState "tcpport" ≤
       cursorOf (allocateResource envAvail initialState "tcpport" "").1 "tcpport") ∧
    (allocateResource envAvail c2S "slot" "" = (c2S', .ok "5") ∧
     cursorOf c2S "slot" ≠ 0 ∧
     ∃ n : Int, "5" = toString n ∧ cursorOf c2S "slot" ≤ n) :=
  ⟨⟨rfl, by decide,
    c6_cursor_monotone.2.2.1 envAvail initialState "tcpport" "" rtTcp rfl
      (by decide) "tcpport"⟩,
   ⟨rfl, by decide,
    c6_cursor_monotone.2.2.2 envAvail c2S "slot" c2S' "5" rfl (by decide)⟩⟩

/-! ### Claim C3 -/

/-- The store after adopting live pid 42 as instance ad. -/
def c3S1 : State := (monitorProcess envAvail initialState 42 "ad").1

/-- The adopted instance ad. -/
def c3Inst : Instance :=
  ((monitorProcess envAvail initialState 42 "ad").2.toOption).getD dummyInstance

/-- Claim C3, as stated, is false: stopProcess signals the process
group of any instance whose pid is non-zero and never consults how the
instance was created, so stopping the freshly adopted instance ad sends
SIGTERM to process group 42. -/
theorem c3_counterexample :
    ¬ (∀ (envM envS : Env) (s s1 : State) (pid : Int) (name : String)
        (inst : Instance),
        monitorProcess envM s pid name = (s1, .ok inst) →
        (stopProcess envS s1 name).2.2 = []) := by
  intro h
  exact absurd (h envAvail envDead initialState c3S1 42 "ad" c3Inst rfl)
    (by decide)

/-- Claim C3 amended: stop sends SIGTERM to the process group of any
instance with a non-zero pid, adopted or supervisor-started alike; the
managed flag is never consulted on the signalling path. -/
theorem c3_stop_signals (env : Env) (s : State) (name : String)
    (inst : Instance) (hfind : VMap.find? s.instances name = some inst)
    (hpid : inst.pid ≠ 0) :
    (stopProcess env s name).2.2.head? = some ⟨-inst.pid, 15⟩ ∧
    (stopProcess env s name).2.2 ≠ [] := by
  unfold stopProcess
  rw [hfind]
  dsimp only
  rw [if_neg hpid]
  constructor
  · split <;> rfl
  · split <;> simp

/-- Witness instantiating c3_stop_signals at the adopted instance ad. -/
theorem c3_witness :
    VMap.find? c3S1.instances "ad" = some c3Inst ∧ c3Inst.pid ≠ 0 ∧
    ((stopProcess envDead c3S1 "ad").2.2.head? = some ⟨-c3Inst.pid, 15⟩ ∧
     (stopProcess envDead c3S1 "ad").2.2 ≠ []) :=
  ⟨rfl, by decide, c3_stop_signals envDead c3S1 "ad" c3Inst rfl (by decide)⟩

/-! ### Claim C8 -/

/-- A running managed instance with pid 42. -/
def c8Inst : Instance :=
  ⟨"x", "t", "sleep 300", 42, "running", [], 900, "", true, "", ""⟩

/-- A store holding only instance x. -/
def c8S : State := { initialState with instances := [("x", c8Inst)] }

/-- The record stopProcess writes for x whatever the probes report. -/
def c8Stopped : Instance := { c8Inst with status := "stopped", pid := 0 }

/-- Claim C8, as stated, is false: even when every liveness probe keeps
reporting the process alive (termination failed), stopProcess still
records status stopped with pid 0; no path leaves the instance in
status stopping. -/
theorem c8_counterexample :
    ¬ (∀ (env : Env) (s : State) (name : String) (inst : Instance),
        VMap.find? s.instances name = some inst → inst.pid ≠ 0 →
        (∀ n, env.kill0 n inst.pid = true) →
        ∃ inst', VMap.find? (stopProcess env s name).1.instances name =
            some inst' ∧ inst'.status = "stopping") := by
  intro h
  obtain ⟨inst', hfind, hstat⟩ :=
    h envAvail c8S "x" c8Inst rfl (by decide) (fun _ => rfl)
  have hf : VMap.find? (stopProcess envAvail c8S "x").1.instances "x" =
      some c8Stopped := rfl
  rw [hf] at hfind
  have he : c8Stopped = inst' := Option.some.inj hfind
  subst he
  exact absurd hstat (by decide)

/-- Claim C8 amended: stop invoked on an instance with pid 0 returns
false and leaves the store untouched; invoked on an instance with a
non-zero pid it always returns true and records status stopped with
pid 0, even when the process survives the kill sequence. The stopping
status is only transient inside the call. -/
theorem c8_stop_final_status (env : Env) (s : State) (name : String)
    (inst : Instance) (hfind : VMap.find? s.instances name = some inst) :
    (inst.pid = 0 → stopProcess env s name = (s, false, [])) ∧
    (inst.pid ≠ 0 →
      (stopProcess env s name).2.1 = true ∧
      VMap.find? (stopProcess env s name).1.instances name =
        some { inst with status := "stopped", pid := 0 }) := by
  constructor
  · intro hz
    unfold stopProcess
    rw [hfind]
    dsimp only
    rw [if_pos hz]
  · intro hnz
    unfold stopProcess
    rw [hfind]
    dsimp only
    rw [if_neg hnz]
    exact ⟨rfl, VMap.find?_set_self _ _ _⟩

/-- Witness instantiating c8_stop_final_status at instance x in a world
where the process never dies. -/
theorem c8_witness :
    VMap.find? c8S.instances "x" = some c8Inst ∧
    ((c8Inst.pid = 0 → stopProcess envAvail c8S "x" = (c8S, false, [])) ∧
     (c8Inst.pid ≠ 0 →
       (stopProcess envAvail c8S "x").2.1 = true ∧
       VMap.find? (stopProcess envAvail c8S "x").1.instances "x" =
         some { c8Inst with status := "stopped", pid := 0 })) :=
  ⟨rfl, c8_stop_final_status envAvail c8S "x" c8Inst rfl⟩

/-! ### Claim C7 -/

theorem restartClaims_instances (env : Env) (name : String) :
    ∀ (l : List (String × String)) (s : State),
      (restartClaims env name l s).1.instances = s.instances := by
  intro l
  induction l with
  | nil => intro s; rfl
  | cons p rest ih =>
    intro s
    obtain ⟨rtype, value⟩ := p
    unfold restartClaims
    cases hf : VMap.find? s.types rtype with
    | none => rfl
    | some rt =>
      dsimp only
      by_cases hc : checkResource env rt value = true
      · rw [if_pos hc]
        exact ih _
      · rw [if_neg hc]

theorem restartProcess_eq (env : Env) (s : State) (name : String)
    (inst : Instance) (hfind : VMap.find? s.instances name = some inst)
    (hst : inst.status = "stopped") :
    restartProcess env s name =
      (match restartClaims env name (sortByKey inst.resources) s with
       | (s1, false) => (s1, false)
       | (s1, true) =>
         if env.forkResult = -1 then
           (State.setInstance (State.releaseResources s1 name) name
             { inst with status := "error", error := "failed to fork process" },
            false)
         else
           (State.setInstance s1 name
             { inst with
               pid := env.forkResult, status := "running"
               started := env.now, error := "" },
            true)) := by
  unfold restartProcess
  rw [hfind]
  dsimp only
  rw [if_neg (by simp [hst])]

/-- A resource type with no check command. -/
def rtA : ResourceType := ⟨"aport", "", false, 0, 0⟩

/-- A stopped instance remembering two resources, aport 7 and bport 8,
where bport is not a known type. -/
def c7Inst : Instance :=
  ⟨"r", "t", "cmd", 0, "stopped", [("aport", "7"), ("bport", "8")], 900, "",
   true, "", ""⟩

/-- A store holding instance r and the aport type (bport unknown). -/
def c7S : State :=
  { initialState with
    instances := [("r", c7Inst)]
    types := VMap.set initialState.types "aport" rtA }

/-- The store after the failing restart of r. -/
def c7S' : State := (restartProcess envAvail c7S "r").1

/-- Claim C7, as stated, is false: restarting r re-claims aport 7, then
hits the unknown type bport and returns false immediately, leaving the
fresh aport claim in place and the instance status stopped, with no
error message recorded. -/
theorem c7_counterexample :
    ¬ (∀ (env : Env) (s : State) (name : String) (inst : Instance)
        (s' : State),
        VMap.find? s.instances name = some inst → inst.status = "stopped" →
        restartProcess env s name = (s', false) →
        ∃ inst', VMap.find? s'.instances name = some inst' ∧
          inst'.status = "error" ∧
          ∀ kv ∈ s'.resources, kv.2.owner = name → kv ∈ s.resources) := by
  intro h
  obtain ⟨inst', hfind, hstat, _⟩ := h envAvail c7S "r" c7Inst c7S' rfl rfl rfl
  have hf : VMap.find? c7S'.instances "r" = some c7Inst := rfl
  rw [hf] at hfind
  have he : c7Inst = inst' := Option.some.inj hfind
  subst he
  exact absurd hstat (by decide)

/-- Claim C7 amended: only a fork failure releases the claims owned by
the instance and records status error with the message, while a failure
during resource re-verification (unknown type or unavailable value)
returns false at once, keeping the claims already re-made in this
attempt and leaving the instance record unchanged. -/
theorem c7_restart_failure (env : Env) (s : State) (name : String)
    (inst : Instance) (hfind : VMap.find? s.instances name = some inst)
    (hst : inst.status = "stopped") :
    (∀ s1, restartClaims env name (sortByKey inst.resources) s = (s1, false) →
      restartProcess env s name = (s1, false) ∧
      VMap.find? s1.instances name = some inst) ∧
    (∀ s1, restartClaims env name (sortByKey inst.resources) s = (s1, true) →
      env.forkResult = -1 →
      (restartProcess env s name).2 = false ∧
      (∀ kv ∈ (restartProcess env s name).1.resources, kv.2.owner ≠ name) ∧
      VMap.find? (restartProcess env s name).1.instances name =
        some { inst with
               status := "error"
               error := "failed to fork process" }) := by
  constructor
  · intro s1 hrc
    have hinst : s1.instances = s.instances := by
      have h0 := restartClaims_instances env name (sortByKey inst.resources) s
      rw [hrc] at h0
      exact h0
    constructor
    · rw [restartProcess_eq env s name inst hfind hst, hrc]
    · rw [hinst]
      exact hfind
  · intro s1 hrc hfork
    have hrp : restartProcess env s name =
        (State.setInstance (State.releaseResources s1 name) name
          { inst with status := "error", error := "failed to fork process" },
         false) := by
      rw [restartProcess_eq env s name inst hfind hst, hrc]
      dsimp only
      rw [if_pos hfork]
    rw [hrp]
    exact ⟨rfl, releaseResources_owner_ne s1 name, VMap.find?_set_self _ _ _⟩

/-- Witness instantiating c7_restart_failure at instance r in c7S. -/
theorem c7_witness :
    VMap.find? c7S.instances "r" = some c7Inst ∧ c7Inst.status = "stopped" ∧
    ((∀ s1, restartClaims envAvail "r" (sortByKey c7Inst.resources) c7S =
        (s1, false) →
      restartProcess envAvail c7S "r" = (s1, false) ∧
      VMap.find? s1.instances "r" = some c7Inst) ∧
    (∀ s1, restartClaims envAvail "r" (sortByKey c7Inst.resources) c7S =
        (s1, true) →
      envAvail.forkResult = -1 →
      (restartProcess envAvail c7S "r").2 = false ∧
      (∀ kv ∈ (restartProcess envAvail c7S "r").1.resources,
        kv.2.owner ≠ "r") ∧
      VMap.find? (restartProcess envAvail c7S "r").1.instances "r" =
        some { c7Inst with
               status := "error"
               error := "failed to fork process" })) :=
  ⟨rfl, rfl, c7_restart_failure envAvail c7S "r" c7Inst rfl rfl⟩

/-! ### Claim C5 -/

theorem allocLoop_instances (env : Env) (name : String) :
    ∀ (l : List String) (s : State) (inst : Instance) (fv : VMap String),
      (allocLoop env name l s inst fv).1.instances = s.instances := by
  intro l
  induction l with
  | nil => intro s inst fv; rfl
  | cons r rest ih =>
    intro s inst fv
    unfold allocLoop
    dsimp only
    cases ha : allocateResource env s r ((VMap.find? fv r).getD "") with
    | mk sa res =>
      cases res with
      | ok v =>
        dsimp only
        rw [ih]
        have h0 := allocateResource_instances env s r ((VMap.find? fv r).getD "")
        rw [ha] at h0
        exact h0
      | error e =>
        dsimp only
        have h0 := allocateResource_instances env s r ((VMap.find? fv r).getD "")
        rw [ha] at h0
        exact h0

theorem counterLoop_instances (env : Env) (name : String) :
    ∀ (fuel : Nat) (s : State) (inst : Instance) (cmd : List Char),
      (counterLoop env name fuel s inst cmd).1.instances = s.instances := by
  intro fuel
  induction fuel with
  | zero => intro s inst cmd; rfl
  | succ n ih =>
    intro s inst cmd
    unfold counterLoop
    cases ht : findPercentToken cmd with
    | none => rfl
    | some ident =>
      dsimp only
      cases ha : allocateResource env s (String.mk ident) "" with
      | mk sa res =>
        cases res with
        | ok v =>
          dsimp only
          rw [ih]
          have h0 := allocateResource_instances env s (String.mk ident) ""
          rw [ha] at h0
          exact h0
        | error e =>
          dsimp only
          have h0 := allocateResource_instances env s (String.mk ident) ""
          rw [ha] at h0
          exact h0

theorem allocLoop_error_clean (env : Env) (name : String) :
    ∀ (l : List String) (s : State) (inst : Instance) (fv : VMap String)
      (s1 : State) (e : StartError),
      allocLoop env name l s inst fv = (s1, .error e) →
      ∀ kv ∈ s1.resources, kv.2.owner ≠ name := by
  intro l
  induction l with
  | nil =>
    intro s inst fv s1 e h
    unfold allocLoop at h
    exact absurd (congrArg Prod.snd h) (by simp)
  | cons r rest ih =>
    intro s inst fv s1 e h
    unfold allocLoop at h
    dsimp only at h
    cases ha : allocateResource env s r ((VMap.find? fv r).getD "") with
    | mk sa res =>
      rw [ha] at h
      cases res with
      | ok v =>
        dsimp only at h
        exact ih _ _ _ _ _ h
      | error e' =>
        dsimp only at h
        have hs1 : State.releaseResources sa name = s1 := congrArg Prod.fst h
        rw [← hs1]
        exact releaseResources_owner_ne sa name

theorem counterLoop_error_clean (env : Env) (name : String) :
    ∀ (fuel : Nat) (s : State) (inst : Instance) (cmd : List Char)
      (s1 : State) (e : StartError),
      counterLoop env name fuel s inst cmd = (s1, .error e) →
      ∀ kv ∈ s1.resources, kv.2.owner ≠ name := by
  intro fuel
  induction fuel with
  | zero =>
    intro s inst cmd s1 e h
    unfold counterLoop at h
    exact absurd (congrArg Prod.snd h) (by simp)
  | succ n ih =>
    intro s inst cmd s1 e h
    unfold counterLoop at h
    cases ht : findPercentToken cmd with
    | none =>
      rw [ht] at h
      dsimp only at h
      exact absurd (congrArg Prod.snd h) (by simp)
    | some ident =>
      rw [ht] at h
      dsimp only at h
      cases ha : allocateResource env s (String.mk ident) "" with
      | mk sa res =>
        rw [ha] at h
        cases res with
        | ok v =>
          dsimp only at h
          exact ih _ _ _ _ _ h
        | error e' =>
          dsimp only at h
          have hs1 : State.releaseResources sa name = s1 := congrArg Prod.fst h
          rw [← hs1]
          exact releaseResources_owner_ne sa name

/-- Claim C5: a start that fails other than by name collision leaves no
instance under the requested name and no claim owned by it; every claim
the attempt made has been released when the error propagates. -/
theorem c5_failed_start_clean (env : Env) (s : State) (tmpl : Template)
    (name : String) (vars : VMap String) (s' : State) (e : StartError)
    (h : startProcess env s tmpl name vars = (s', .error e))
    (hne : e ≠ .alreadyExists name) :
    VMap.find? s'.instances name = none ∧
    ∀ kv ∈ s'.resources, kv.2.owner ≠ name := by
  unfold startProcess at h
  by_cases hex : (VMap.find? s.instances name).isSome
  · rw [if_pos hex] at h
    have h2 := congrArg Prod.snd h
    dsimp only at h2
    exact absurd (Except.error.inj h2).symm hne
  · rw [if_neg hex] at h
    have hnone : VMap.find? s.instances name = none :=
      Option.not_isSome_iff_eq_none.mp hex
    cases hal : allocLoop env name tmpl.resources s (startInst0 tmpl name)
        (mergeVars tmpl.vars vars) with
    | mk s1 r1 =>
      rw [hal] at h
      cases r1 with
      | error e1 =>
        dsimp only at h
        have hs' : s1 = s' := congrArg Prod.fst h
        subst hs'
        constructor
        · have hi := allocLoop_instances env name tmpl.resources s
            (startInst0 tmpl name) (mergeVars tmpl.vars vars)
          rw [hal] at hi
          dsimp only at hi
          rw [hi]
          exact hnone
        · exact allocLoop_error_clean env name _ _ _ _ _ _ hal
      | ok p =>
        obtain ⟨inst1, fvars⟩ := p
        dsimp only at h
        cases hcl : counterLoop env name (substVars fvars tmpl.command).data.length
            s1 inst1 (substVars fvars tmpl.command).data with
        | mk s2 r2 =>
          rw [hcl] at h
          cases r2 with
          | error e2 =>
            dsimp only at h
            have hs' : s2 = s' := congrArg Prod.fst h
            subst hs'
            constructor
            · have hi2 := counterLoop_instances env name
                (substVars fvars tmpl.command).data.length s1 inst1
                (substVars fvars tmpl.command).data
              rw [hcl] at hi2
              dsimp only at hi2
              have hi1 := allocLoop_instances env name tmpl.resources s
                (startInst0 tmpl name) (mergeVars tmpl.vars vars)
              rw [hal] at hi1
              dsimp only at hi1
              rw [hi2, hi1]
              exact hnone
            · exact counterLoop_error_clean env name _ _ _ _ _ _ hcl
          | ok q =>
            obtain ⟨inst2, cmdc⟩ := q
            dsimp only at h
            by_cases hfk : env.forkResult = -1
            · rw [if_pos hfk] at h
              have hs' : State.releaseResources s2 name = s' :=
                congrArg Prod.fst h
              constructor
              · rw [← hs']
                show VMap.find? s2.instances name = none
                have hi2 := counterLoop_instances env name
                  (substVars fvars tmpl.command).data.length s1 inst1
                  (substVars fvars tmpl.command).data
                rw [hcl] at hi2
                dsimp only at hi2
                have hi1 := allocLoop_instances env name tmpl.resources s
                  (startInst0 tmpl name) (mergeVars tmpl.vars vars)
                rw [hal] at hi1
                dsimp only at hi1
                rw [hi2, hi1]
                exact hnone
              · rw [← hs']
                exact releaseResources_owner_ne s2 name
            · rw [if_neg hfk] at h
              have h2 := congrArg Prod.snd h
              dsimp only at h2
              exact absurd h2 (by simp)

/-- A template requiring a resource type that does not exist. -/
def tmplBad : Template := ⟨"bad", "", "cmd", ["nosuch"], [], ""⟩

/-- The store after the failing start of w. -/
def c5S' : State := (startProcess envAvail initialState tmplBad "w" []).1

/-- Witness instantiating c5_failed_start_clean at the failing start of
w from the initial state. -/
theorem c5_witness :
    startProcess envAvail initialState tmplBad "w" [] =
      (c5S', .error (.resourceAllocationFailed (.unknownResourceType "nosuch"))) ∧
    (StartError.resourceAllocationFailed (.unknownResourceType "nosuch") ≠
      .alreadyExists "w") ∧
    (VMap.find? c5S'.instances "w" = none ∧
     ∀ kv ∈ c5S'.resources, kv.2.owner ≠ "w") :=
  ⟨rfl, by decide,
   c5_failed_start_clean envAvail initialState tmplBad "w" [] c5S' _ rfl
     (by decide)⟩

/-! ### Claim C1 -/

/-- A successful operation sequence: import the process listening on
port 8080 as instance web. -/
def c1Ops : List Op := [Op.importPort envAvail 8080 "web"]

/-- The store that sequence produces. -/
def c1Final : State := (runOps initialState c1Ops).getD initialState

/-- Claim C1, as stated, is false: the single successful core operation
import-on-port records tcpport 8080 in the resources map of instance
web without installing any claim, so the store it produces violates the
two-way invariant (an unbacked resource entry). The HTTP delete action
similarly leaves orphan claims by erasing an instance without releasing
them. -/
theorem c1_counterexample :
    ¬ (∀ (ops : List Op) (s' : State),
        runOps initialState ops = some s' → stateConsistent s' = true) := by
  intro h
  exact absurd (h c1Ops c1Final rfl) (by decide)

theorem claimKey_data (t v : String) :
    (claimKey t v).data = t.data ++ ':' :: v.data := by
  show (t ++ ":" ++ v).data = t.data ++ ':' :: v.data
  simp

theorem append_colon_inj : ∀ (a c b d : List Char),
    ':' ∉ a → ':' ∉ c → a ++ ':' :: b = c ++ ':' :: d → a = c ∧ b = d := by
  intro a
  induction a with
  | nil =>
    intro c b d _ hc h
    cases c with
    | nil => simpa using h
    | cons x cs =>
      simp only [List.nil_append, List.cons_append, List.cons.injEq] at h
      obtain ⟨hx, _⟩ := h
      subst hx
      exact absurd (List.mem_cons_self _ _) hc
  | cons y as ih =>
    intro c b d ha hc h
    cases c with
    | nil =>
      simp only [List.nil_append, List.cons_append, List.cons.injEq] at h
      obtain ⟨hy, _⟩ := h
      rw [← hy] at ha
      exact absurd (List.mem_cons_self _ _) ha
    | cons x cs =>
      simp only [List.cons_append, List.cons.injEq] at h
      obtain ⟨hyx, hrest⟩ := h
      obtain ⟨h1, h2⟩ := ih cs b d
        (fun hm => ha (List.mem_cons_of_mem y hm))
        (fun hm => hc (List.mem_cons_of_mem x hm)) hrest
      exact ⟨by rw [hyx, h1], h2⟩

theorem claimKey_inj (t v t' v' : String) (ht : ':' ∉ t.data)
    (ht' : ':' ∉ t'.data) (h : claimKey t v = claimKey t' v') :
    t = t' ∧ v = v' := by
  have hd := congrArg String.data h
  rw [claimKey_data, claimKey_data] at hd
  obtain ⟨h1, h2⟩ := append_colon_inj t.data t'.data v.data v'.data ht ht' hd
  exact ⟨String.ext h1, String.ext h2⟩

/-- Every entry of an instance resources map is a colon-free type name
whose pair is claimed for the owner in the claims table. -/
def ResourcesBacked (name : String) (tbl : VMap Resource)
    (res : VMap String) : Prop :=
  ∀ t v, VMap.find? res t = some v →
    ':' ∉ t.data ∧ VMap.find? tbl (claimKey t v) = some ⟨t, v, name⟩

theorem backed_claim_step (name : String) (tbl : VMap Resource)
    (res : VMap String) (t v : String) (ht : ':' ∉ t.data)
    (hb : ResourcesBacked name tbl res) :
    ResourcesBacked name (VMap.set tbl (claimKey t v) ⟨t, v, name⟩)
      (VMap.set res t v) := by
  intro t' v' hfind
  by_cases hteq : t' = t
  · subst hteq
    rw [VMap.find?_set_self] at hfind
    obtain rfl : v = v' := Option.some.inj hfind
    exact ⟨ht, VMap.find?_set_self _ _ _⟩
  · rw [VMap.find?_set_ne _ _ _ _ hteq] at hfind
    obtain ⟨ht', hclaim⟩ := hb t' v' hfind
    refine ⟨ht', ?_⟩
    rw [VMap.find?_set_ne]
    · exact hclaim
    · intro hk
      exact hteq (claimKey_inj t' v' t v ht' ht hk).1

theorem allocLoop_backed (env : Env) (name : String) :
    ∀ (l : List String) (s : State) (inst : Instance) (fv : VMap String)
      (s1 : State) (inst1 : Instance) (fv1 : VMap String),
      (∀ t ∈ l, ':' ∉ t.data) →
      ResourcesBacked name s.resources inst.resources →
      allocLoop env name l s inst fv = (s1, .ok (inst1, fv1)) →
      ResourcesBacked name s1.resources inst1.resources := by
  intro l
  induction l with
  | nil =>
    intro s inst fv s1 inst1 fv1 _ hb h
    unfold allocLoop at h
    have hs : s = s1 := congrArg Prod.fst h
    have hp := Except.ok.inj (congrArg Prod.snd h)
    have hi : inst = inst1 := congrArg Prod.fst hp
    subst hs
    rw [← hi]
    exact hb
  | cons r rest ih =>
    intro s inst fv s1 inst1 fv1 hl hb h
    unfold allocLoop at h
    dsimp only at h
    cases ha : allocateResource env s r ((VMap.find? fv r).getD "") with
    | mk sa res =>
      rw [ha] at h
      cases res with
      | error e =>
        dsimp only at h
        exact absurd (congrArg Prod.snd h) (by simp)
      | ok v =>
        dsimp only at h
        refine ih _ _ _ _ _ _
          (fun t htl => hl t (List.mem_cons_of_mem r htl)) ?_ h
        have hres : sa.resources = s.resources := by
          have h0 := allocateResource_resources env s r ((VMap.find? fv r).getD "")
          rw [ha] at h0
          exact h0
        have hb' : ResourcesBacked name sa.resources inst.resources := by
          rw [hres]
          exact hb
        exact backed_claim_step name sa.resources inst.resources r v
          (hl r (List.mem_cons_self r rest)) hb'

theorem takeIdent_ident : ∀ (l : List Char), ∀ c ∈ takeIdent l,
    isIdentChar c = true := by
  intro l
  induction l with
  | nil => intro c hc; cases hc
  | cons a as ih =>
    intro c hc
    unfold takeIdent at hc
    by_cases hid : isIdentChar a = true
    · rw [if_pos hid] at hc
      cases hc with
      | head => exact hid
      | tail _ hm => exact ih c hm
    · rw [if_neg hid] at hc
      cases hc

theorem findPercentToken_ident : ∀ (l ident : List Char),
    findPercentToken l = some ident → ∀ c ∈ ident, isIdentChar c = true := by
  intro l
  induction l with
  | nil => intro ident h; cases h
  | cons a as ih =>
    intro ident h c hc
    unfold findPercentToken at h
    by_cases hp : a = '%'
    · rw [if_pos hp] at h
      cases as with
      | nil => cases h
      | cons d ds =>
        dsimp only at h
        by_cases hid : isIdentStart d = true
        · rw [if_pos hid] at h
          have hi : d :: takeIdent ds = ident := Option.some.inj h
          rw [← hi] at hc
          cases hc with
          | head => simp [isIdentChar, hid]
          | tail _ hm => exact takeIdent_ident ds c hm
        · rw [if_neg hid] at h
          exact ih ident h c hc
    · rw [if_neg hp] at h
      exact ih ident h c hc

theorem findPercentToken_no_colon (l ident : List Char)
    (h : findPercentToken l = some ident) : ':' ∉ ident := by
  intro hc
  exact absurd (findPercentToken_ident l ident h ':' hc) (by decide)

theorem counterLoop_backed (env : Env) (name : String) :
    ∀ (fuel : Nat) (s : State) (inst : Instance) (cmd : List Char)
      (s1 : State) (inst1 : Instance) (cmd1 : List Char),
      ResourcesBacked name s.resources inst.resources →
      counterLoop env name fuel s inst cmd = (s1, .ok (inst1, cmd1)) →
      ResourcesBacked name s1.resources inst1.resources := by
  intro fuel
  induction fuel with
  | zero =>
    intro s inst cmd s1 inst1 cmd1 hb h
    unfold counterLoop at h
    have hs : s = s1 := congrArg Prod.fst h
    have hp := Except.ok.inj (congrArg Prod.snd h)
    have hi : inst = inst1 := congrArg Prod.fst hp
    subst hs
    rw [← hi]
    exact hb
  | succ n ih =>
    intro s inst cmd s1 inst1 cmd1 hb h
    unfold counterLoop at h
    cases ht : findPercentToken cmd with
    | none =>
      rw [ht] at h
      dsimp only at h
      have hs : s = s1 := congrArg Prod.fst h
      have hp := Except.ok.inj (congrArg Prod.snd h)
      have hi : inst = inst1 := congrArg Prod.fst hp
      subst hs
      rw [← hi]
      exact hb
    | some ident =>
      rw [ht] at h
      dsimp only at h
      cases ha : allocateResource env s (String.mk ident) "" with
      | mk sa res =>
        rw [ha] at h
        cases res with
        | error e =>
          dsimp only at h
          exact absurd (congrArg Prod.snd h) (by simp)
        | ok v =>
          dsimp only at h
          refine ih _ _ _ _ _ _ ?_ h
          have hres : sa.resources = s.resources := by
            have h0 := allocateResource_resources env s (String.mk ident) ""
            rw [ha] at h0
            exact h0
          have hb' : ResourcesBacked name sa.resources inst.resources := by
            rw [hres]
            exact hb
          have hnc : ':' ∉ (String.mk ident).data :=
            findPercentToken_no_colon cmd ident ht
          exact backed_claim_step name sa.resources inst.resources
            (String.mk ident) v hnc hb'

/-- Claim C1 amended: the global two-way invariant does not hold over
the core operations (import-on-port and adoption record resources
without claims, the HTTP delete erases instances without releasing
claims, and a claim overwrite can strand a previous owner). What the
start path does guarantee: immediately after a successful start whose
template resource type names contain no colon, every pair recorded in
the new instance's resources map is claimed in the claims table under
that instance's name. -/
theorem c1_start_resources_backed (env : Env) (s : State) (tmpl : Template)
    (name : String) (vars : VMap String) (s' : State) (inst : Instance)
    (hl : ∀ t ∈ tmpl.resources, ':' ∉ t.data)
    (h : startProcess env s tmpl name vars = (s', .ok inst)) :
    ∀ t v, VMap.find? inst.resources t = some v →
      VMap.find? s'.resources (claimKey t v) = some ⟨t, v, name⟩ := by
  unfold startProcess at h
  by_cases hex : (VMap.find? s.instances name).isSome
  · rw [if_pos hex] at h
    exact absurd (congrArg Prod.snd h) (by simp)
  · rw [if_neg hex] at h
    cases hal : allocLoop env name tmpl.resources s (startInst0 tmpl name)
        (mergeVars tmpl.vars vars) with
    | mk s1 r1 =>
      rw [hal] at h
      cases r1 with
      | error e1 =>
        dsimp only at h
        exact absurd (congrArg Prod.snd h) (by simp)
      | ok p =>
        obtain ⟨inst1, fvars⟩ := p
        dsimp only at h
        have hb0 : ResourcesBacked name s.resources
            (startInst0 tmpl name).resources := by
          intro t v hf
          simp [startInst0, VMap.find?] at hf
        have hb1 := allocLoop_backed env name tmpl.resources s
          (startInst0 tmpl name) (mergeVars tmpl.vars vars) s1 inst1 fvars
          hl hb0 hal
        cases hcl : counterLoop env name
            (substVars fvars tmpl.command).data.length s1 inst1
            (substVars fvars tmpl.command).data with
        | mk s2 r2 =>
          rw [hcl] at h
          cases r2 with
          | error e2 =>
            dsimp only at h
            exact absurd (congrArg Prod.snd h) (by simp)
          | ok q =>
            obtain ⟨inst2, cmdc⟩ := q
            dsimp only at h
            have hb2 := counterLoop_backed env name
              (substVars fvars tmpl.command).data.length s1 inst1
              (substVars fvars tmpl.command).data s2 inst2 cmdc hb1 hcl
            by_cases hfk : env.forkResult = -1
            · rw [if_pos hfk] at h
              exact absurd (congrArg Prod.snd h) (by simp)
            · rw [if_neg hfk] at h
              have hs' : State.setInstance s2 name
                  (startFinish env tmpl fvars inst2 cmdc) = s' :=
                congrArg Prod.fst h
              have hinst : startFinish env tmpl fvars inst2 cmdc = inst :=
                Except.ok.inj (congrArg Prod.snd h)
              intro t v hf
              have hfr : (startFinish env tmpl fvars inst2 cmdc).resources =
                  inst2.resources := by
                unfold startFinish
                split <;> rfl
              rw [← hinst, hfr] at hf
              obtain ⟨_, hclaim⟩ := hb2 t v hf
              rw [← hs']
              exact hclaim

/-- The node-express default template. -/
def tmplNE : Template :=
  ⟨"node-express", "Node.js Express Server",
   "node server.js --port $\x7btcpport\x7d", ["tcpport"], [], ""⟩

/-- The store after starting web1 from node-express. -/
def c1WS : State := (startProcess envAvail initialState tmplNE "web1" []).1

/-- The instance web1 produced by that start. -/
def c1WInst : Instance :=
  ((startProcess envAvail initialState tmplNE "web1" []).2.toOption).getD
    dummyInstance

/-- Witness instantiating c1_start_resources_backed at the start of
web1 from the initial state with everything available. -/
theorem c1_witness :
    (∀ t ∈ tmplNE.resources, ':' ∉ t.data) ∧
    startProcess envAvail initialState tmplNE "web1" [] =
      (c1WS, .ok c1WInst) ∧
    ∀ t v, VMap.find? c1WInst.resources t = some v →
      VMap.find? c1WS.resources (claimKey t v) = some ⟨t, v, "web1"⟩ :=
  ⟨by decide, by rfl,
   c1_start_resources_backed envAvail initialState tmplNE "web1" [] c1WS
     c1WInst (by decide) (by rfl)⟩

end VP
